import Mathlib

/-!
# Verification of the fact dispatch buffer (`main.go`)

A shallow embedding of `main.go`: the `Fact` record, the form built by `trySend`,
the status classification of `trySend`, the retry loop of `sendFact`, and the
`Buffer` with its queue and its `sync.WaitGroup` counter.

Effects are made explicit:

* the HTTP transport is a function giving the result of each call (`Client`);
* `time.Sleep`, `log.Printf` and each call of `trySend` append an `Event` to a trace;
* Go's `error` is its message, `nil` being `none`;
* Go's `int` is `Int` (no arithmetic is done on the fields of a `Fact`).
-/

namespace KpiDrive

/-! ## Data model -/

/-- Fact: the data sent to the server (`type Fact struct`). -/
structure Fact where
  PeriodStart : String
  PeriodEnd : String
  PeriodKey : String
  IndicatorToMoID : Int
  IndicatorToMoFactID : Int
  Value : Int
  FactTime : String
  IsPlan : Bool
  AuthUserID : Int
  Comment : String
deriving DecidableEq, Repr

/-- Values: Go's `url.Values` (`map[string][]string`) as an association list with one
entry per key. The order of the entries carries no meaning. -/
abbrev Values := List (String × List String)

/-- Set: `url.Values.Set`, that is `v[key] = []string{value}`: the entry of `key` is
replaced when there is one, and added otherwise. -/
def Values.Set : Values → String → String → Values
  | [], key, value => [(key, [value])]
  | (k, vs) :: rest, key, value =>
    if k = key then (k, [value]) :: rest else (k, vs) :: Values.Set rest key value

/-- Lookup of the values stored under a key (`v[key]`). -/
def Values.lookup : Values → String → Option (List String)
  | [], _ => none
  | (k, vs) :: rest, key => if k = key then some vs else Values.lookup rest key

/-- Keys of the map. -/
def Values.keys (v : Values) : List String := v.map Prod.fst

/-- Itoa: `strconv.Itoa`, the decimal text of an integer (also what `%d` prints). -/
def itoa (n : Int) : String := toString n

/-- The map literal `map[bool]string{true: "1", false: "0"}` indexed by a boolean. -/
def planFlag : Bool → String
  | true => "1"
  | false => "0"

/-- The form built by `trySend` (lines 81-91 of `main.go`). -/
def trySendForm (fact : Fact) : Values :=
  let form : Values := []
  let form := form.Set "period_start" fact.PeriodStart
  let form := form.Set "period_end" fact.PeriodEnd
  let form := form.Set "period_key" fact.PeriodKey
  let form := form.Set "indicator_to_mo_id" (itoa fact.IndicatorToMoID)
  let form := form.Set "indicator_to_mo_fact_id" "0"
  let form := form.Set "value" (itoa fact.Value)
  let form := form.Set "fact_time" fact.FactTime
  let form := form.Set "is_plan" (planFlag fact.IsPlan)
  let form := form.Set "auth_user_id" (itoa fact.AuthUserID)
  let form := form.Set "comment" fact.Comment
  form

/-! ## Transport, events and the world -/

/-- What the HTTP layer does with one request of `trySend`: `http.NewRequest` fails,
`client.Do` fails, or a response with a status code and a body comes back. -/
inductive TransportResult where
  | newRequestError (detail : String)
  | doError (detail : String)
  | response (statusCode : Int) (body : String)
deriving DecidableEq, Repr

/-- A Delivery Client behaviour: the transport result of each call of `trySend`,
numbered from 0 in the order the calls are made. -/
abbrev Client := Nat → TransportResult

/-- Observable events of one task. -/
inductive Event where
  | attempt (form : Values) (result : TransportResult)
  | log (line : String)
  | sleep (nanoseconds : Nat)
deriving DecidableEq, Repr

/-- The world of one task: how many calls of `trySend` were made, and the events so far. -/
structure World where
  calls : Nat
  trace : List Event
deriving DecidableEq, Repr

/-- The world before anything happened. -/
def World.init : World := ⟨0, []⟩

/-- Append one event to the trace. -/
def World.emit (w : World) (e : Event) : World := ⟨w.calls, w.trace ++ [e]⟩

/-- The constant `http.StatusOK`. -/
def StatusOK : Int := 200

/-- The error returned by `trySend` for a transport result (lines 93-111):
`none` is Go's `nil`. -/
def trySendError : TransportResult → Option String
  | .newRequestError detail => some ("ошибка создания запроса: " ++ detail)
  | .doError detail => some ("ошибка запроса: " ++ detail)
  | .response statusCode body =>
    if statusCode ≠ StatusOK then
      some ("код " ++ itoa statusCode ++ ": " ++ body)
    else
      none

/-- trySend: one HTTP POST. It builds the form, takes the next transport result of the
client, records the call, and classifies the result. -/
def trySend (client : Client) (fact : Fact) (w : World) : Option String × World :=
  let form := trySendForm fact
  let result := client w.calls
  let w1 : World := ⟨w.calls + 1, w.trace ++ [Event.attempt form result]⟩
  (trySendError result, w1)

/-- The constant `maxRetries` of `sendFact`. -/
def maxRetries : Nat := 3

/-- The constant `retryDelay` of `sendFact`: `1 * time.Second`, in nanoseconds. -/
def retryDelay : Nat := 1 * 1000000000

/-- What `%v` prints for an `error` value. -/
def errorText : Option String → String
  | some msg => msg
  | none => "<nil>"

/-- The loop `for i := 0; i < maxRetries; i++` of `sendFact`, with `n = maxRetries - i`
iterations left, followed by the final `return fmt.Errorf(...)`. -/
def sendFactLoop (client : Client) (fact : Fact) :
    Nat → Nat → Option String → World → Option String × World
  | 0, _, err, w =>
    (some ("сбой после " ++ toString maxRetries ++ " попыток: " ++ errorText err), w)
  | n + 1, i, _, w =>
    match trySend client fact w with
    | (none, w1) => (none, w1)
    | (some e, w1) =>
      let w2 := w1.emit
        (Event.log ("Попытка " ++ toString (i + 1) ++ " для факта " ++ itoa fact.Value ++ ": " ++ e))
      let w3 := w2.emit (Event.sleep retryDelay)
      sendFactLoop client fact n (i + 1) (some e) w3

/-- sendFact: sending with retries on errors. -/
def sendFact (client : Client) (fact : Fact) (w : World) : Option String × World :=
  sendFactLoop client fact maxRetries 0 none w

/-! ## Reading a trace -/

/-- The error returned by call number `k` (from 0) of `trySend` under a client. -/
def attemptError (client : Client) (fact : Fact) (k : Nat) : Option String :=
  (trySend client fact ⟨k, []⟩).1

/-- Kinds of events: an attempt that returned `nil`, an attempt that returned an error,
a delay, a log line. -/
inductive Kind where
  | attemptOk
  | attemptFailed
  | delay
  | logLine
deriving DecidableEq, Repr

/-- The kind of an event. -/
def Event.kind : Event → Kind
  | .attempt _ result => if trySendError result = none then .attemptOk else .attemptFailed
  | .sleep _ => .delay
  | .log _ => .logLine

/-- Whether a kind is an attempt. -/
def Kind.isAttempt : Kind → Bool
  | .attemptOk => true
  | .attemptFailed => true
  | _ => false

/-- The attempts and delays of a trace, in order, as kinds (log lines left out). -/
def actions (tr : List Event) : List Kind :=
  (tr.map Event.kind).filter (fun k => decide (k ≠ Kind.logLine))

/-- Number of calls of `trySend` recorded in a trace. -/
def attempts (tr : List Event) : Nat := ((actions tr).filter Kind.isAttempt).length

/-- Number of calls of `trySend` that returned an error. -/
def failedAttempts (tr : List Event) : Nat := (actions tr).count Kind.attemptFailed

/-- Number of `time.Sleep` calls recorded in a trace. -/
def delays (tr : List Event) : Nat := (actions tr).count Kind.delay

/-- The transport results of the recorded calls of `trySend`, in order. -/
def attemptResults : List Event → List TransportResult
  | [] => []
  | .attempt _ result :: rest => result :: attemptResults rest
  | _ :: rest => attemptResults rest

/-- The log line of `sendFact` after failed attempt `i + 1`. -/
def attemptLog (fact : Fact) (i : Nat) (e : String) : Event :=
  Event.log ("Попытка " ++ toString (i + 1) ++ " для факта " ++ itoa fact.Value ++ ": " ++ e)

/-! ## The buffer -/

/-- The terminal outcome of one task: the branch of `process` that ran. -/
inductive Outcome where
  | delivered
  | failed (err : String)
deriving DecidableEq, Repr

/-- Whether an outcome is a failure. -/
def Outcome.isFailed : Outcome → Bool
  | .failed _ => true
  | .delivered => false

/-- The body of `process` (lines 56-60): `sendFact`, then one log line on either branch. -/
def process (client : Client) (fact : Fact) (w : World) : Outcome × World :=
  match sendFact client fact w with
  | (some err, w1) => (Outcome.failed err, w1.emit (Event.log ("Ошибка отправки: " ++ err)))
  | (none, w1) =>
    (Outcome.delivered, w1.emit (Event.log ("Факт " ++ itoa fact.Value ++ " успешно отправлен")))

/-- A goroutine launched by `go b.process(fact)`: its record, its terminal outcome once
`process` has returned (`none` before), and the events of its run. -/
structure Task where
  fact : Fact
  outcome : Option Outcome
  trace : List Event
deriving DecidableEq, Repr

/-- A goroutine whose `process` has returned: the outcome and the events of the run of the
body of `process` on its record with its client. -/
def Task.done (client : Client) (fact : Fact) : Task :=
  ⟨fact, some (process client fact World.init).1, (process client fact World.init).2.trace⟩

/-- Buffer: the queue, the counter of the `sync.WaitGroup`, and the goroutines launched so
far in launch order. The mutex is held only inside the append of `AddFacts`, so it is free
between the steps below. -/
structure Buffer where
  queue : List Fact
  wg : Int
  tasks : List Task
deriving DecidableEq, Repr

/-- NewBuffer: `&Buffer{}`. -/
def NewBuffer : Buffer := ⟨[], 0, []⟩

/-- Lines 43-45 of `AddFacts`: the append to the queue under the lock. -/
def Buffer.appendLocked (b : Buffer) (facts : List Fact) : Buffer :=
  ⟨b.queue ++ facts, b.wg, b.tasks⟩

/-- The call `wg.Add(delta)`. -/
def Buffer.wgAdd (b : Buffer) (delta : Int) : Buffer :=
  ⟨b.queue, b.wg + delta, b.tasks⟩

/-- The statement `go b.process(fact)`: one more goroutine, not yet returned. -/
def Buffer.launch (b : Buffer) (fact : Fact) : Buffer :=
  ⟨b.queue, b.wg, b.tasks ++ [⟨fact, none, []⟩]⟩

/-- AddFacts: append under the lock, `wg.Add(len(facts))`, then one goroutine per record. -/
def Buffer.AddFacts (b : Buffer) (facts : List Fact) : Buffer :=
  let b1 := b.appendLocked facts
  let b2 := b1.wgAdd (facts.length : Int)
  facts.foldl Buffer.launch b2

/-- The goroutine number `i` runs `b.process(fact)` to its return: the body of `process`
with the client assigned to that goroutine, then the deferred `wg.Done()`, that is
`wg.Add(-1)`. A goroutine runs once: there is no step for one that has returned. -/
def Buffer.process (env : Nat → Client) (b : Buffer) (i : Nat) : Option Buffer :=
  match b.tasks[i]? with
  | some ⟨fact, none, _⟩ =>
    some ((⟨b.queue, b.wg, b.tasks.set i (Task.done (env i) fact)⟩ : Buffer).wgAdd (-1))
  | _ => none

/-- The steps of the buffer: a call of `AddFacts`, or the return of one goroutine. -/
inductive Step where
  | addFacts (facts : List Fact)
  | finish (task : Nat)
deriving DecidableEq, Repr

/-- One step. -/
def Buffer.step (env : Nat → Client) (b : Buffer) : Step → Option Buffer
  | .addFacts facts => some (b.AddFacts facts)
  | .finish i => b.process env i

/-- A sequence of steps; `none` when one of them is not possible. -/
def Buffer.run (env : Nat → Client) : Buffer → List Step → Option Buffer
  | b, [] => some b
  | b, s :: rest =>
    match b.step env s with
    | some b1 => Buffer.run env b1 rest
    | none => none

/-- Number of goroutines launched and not yet returned. -/
def Buffer.running (b : Buffer) : Nat :=
  (b.tasks.filter (fun t => t.outcome.isNone)).length

/-- Number of terminal outcomes produced. -/
def Buffer.terminal (b : Buffer) : Nat :=
  (b.tasks.filter (fun t => t.outcome.isSome)).length

/-- Number of `Failed` outcomes. -/
def Buffer.failedCount (b : Buffer) : Nat :=
  (b.tasks.filter (fun t => t.outcome.any Outcome.isFailed)).length

/-- Number of `Delivered` outcomes. -/
def Buffer.deliveredCount (b : Buffer) : Nat :=
  (b.tasks.filter (fun t => decide (t.outcome = some Outcome.delivered))).length

/-- Whether `wg.Wait()` returns: the counter is zero. -/
def Buffer.waitReturns (b : Buffer) : Bool := decide (b.wg = 0)

/-- The invariant of the buffer: the counter is the number of goroutines not yet returned,
there is one goroutine per queued record, in order, and each goroutine either has not
returned or holds the result of `process` on its own record with its own client. -/
def Buffer.Inv (env : Nat → Client) (b : Buffer) : Prop :=
  b.wg = (b.running : Int) ∧
  b.tasks.map Task.fact = b.queue ∧
  ∀ (i : Nat) (t : Task), b.tasks[i]? = some t →
    t = ⟨t.fact, none, []⟩ ∨ t = Task.done (env i) t.fact

/-- The buffer once every goroutine of a batch added to a new buffer has returned. -/
def Buffer.completed (env : Nat → Client) (facts : List Fact) : Buffer :=
  ⟨facts, 0, facts.enum.map (fun p => Task.done (env p.1) p.2)⟩

/-- The operations of `AddFacts` one by one, as they interleave between concurrent calls. -/
inductive Op where
  | append (facts : List Fact)
  | add (delta : Int)
  | launch (fact : Fact)
deriving DecidableEq, Repr

/-- One operation. -/
def Buffer.exec (b : Buffer) : Op → Buffer
  | .append facts => b.appendLocked facts
  | .add delta => b.wgAdd delta
  | .launch fact => b.launch fact

/-- Number of records an operation appends to the queue. -/
def Op.appended : Op → Nat
  | .append facts => facts.length
  | .add _ => 0
  | .launch _ => 0

/-- The operations of one call of `AddFacts`, in program order. -/
def addFactsOps (facts : List Fact) : List Op :=
  Op.append facts :: Op.add (facts.length : Int) :: facts.map Op.launch

/-! ## Concrete inputs -/

/-- The record `facts[i]` built by `main` (lines 122-133). -/
def mainFact (i : Nat) : Fact where
  PeriodStart := "2024-12-01"
  PeriodEnd := "2024-12-31"
  PeriodKey := "month"
  IndicatorToMoID := 227373
  IndicatorToMoFactID := 0
  Value := (i : Int) + 1
  FactTime := "2024-12-31"
  IsPlan := false
  AuthUserID := 40
  Comment := "buffer Last_name " ++ toString (i + 1)

/-- The batch of 10 records built by `main`. -/
def mainFacts : List Fact := (List.range 10).map mainFact

/-- A client whose every call gets a response with status 200. -/
def alwaysOk : Client := fun _ => TransportResult.response 200 ""

/-- A client whose every call is rejected with status 500 and body `err`. -/
def always500 : Client := fun _ => TransportResult.response 500 "err"

/-- A client rejected with status 503 on its first call and accepted afterwards. -/
def failOnce : Client := fun k =>
  if k = 0 then TransportResult.response 503 "busy" else TransportResult.response 200 ""

/-- A client that fails in three different ways on its first three calls. -/
def failThreeWays : Client := fun k =>
  if k = 0 then TransportResult.doError "timeout"
  else if k = 1 then TransportResult.response 404 "not found"
  else TransportResult.response 502 "bad gateway"

/-- The client assignment of the scenario: record number 5 (index 4) always fails, the
others always succeed. -/
def fifthFails : Nat → Client := fun i => if i = 4 then always500 else alwaysOk

/-- The order in which the goroutines return in the sample runs. -/
def sampleOrder : List Nat := [3, 9, 0, 4, 1, 2, 8, 7, 6, 5]

/-- A state in the middle of a run: the batch of `main` added, two goroutines returned. -/
def midRun : Buffer :=
  (Buffer.run fifthFails NewBuffer
    [Step.addFacts mainFacts, Step.finish 4, Step.finish 0]).getD NewBuffer

/-- The state at the end of a run of `main` in the sample order. -/
def endRun : Buffer :=
  (Buffer.run fifthFails NewBuffer
    (Step.addFacts mainFacts :: sampleOrder.map Step.finish)).getD NewBuffer

/-! ## The retry loop unfolded -/

theorem attemptError_eq (client : Client) (fact : Fact) (k : Nat) :
    attemptError client fact k = trySendError (client k) := rfl

/-- The run of `sendFact` from the initial world, by the results of the first three calls. -/
theorem sendFact_init_eq (client : Client) (fact : Fact) :
    sendFact client fact World.init =
      match trySendError (client 0) with
      | none => (none, ⟨1, [Event.attempt (trySendForm fact) (client 0)]⟩)
      | some e0 =>
        match trySendError (client 1) with
        | none => (none, ⟨2, [Event.attempt (trySendForm fact) (client 0), attemptLog fact 0 e0,
            Event.sleep retryDelay, Event.attempt (trySendForm fact) (client 1)]⟩)
        | some e1 =>
          match trySendError (client 2) with
          | none => (none, ⟨3, [Event.attempt (trySendForm fact) (client 0), attemptLog fact 0 e0,
              Event.sleep retryDelay, Event.attempt (trySendForm fact) (client 1),
              attemptLog fact 1 e1, Event.sleep retryDelay,
              Event.attempt (trySendForm fact) (client 2)]⟩)
          | some e2 => (some ("сбой после 3 попыток: " ++ e2),
              ⟨3, [Event.attempt (trySendForm fact) (client 0), attemptLog fact 0 e0,
              Event.sleep retryDelay, Event.attempt (trySendForm fact) (client 1),
              attemptLog fact 1 e1, Event.sleep retryDelay,
              Event.attempt (trySendForm fact) (client 2), attemptLog fact 2 e2,
              Event.sleep retryDelay]⟩) := by
  cases h0 : trySendError (client 0) <;> cases h1 : trySendError (client 1) <;>
    cases h2 : trySendError (client 2)
  all_goals
    simp [sendFact, maxRetries, sendFactLoop, trySend, World.init, World.emit, attemptLog,
      errorText, h0, h1, h2]
  rfl

/-- The kinds of the attempts and delays of a run of `sendFact` from the initial world. -/
theorem sendFact_actions (client : Client) (fact : Fact) :
    actions (sendFact client fact World.init).2.trace =
      match trySendError (client 0) with
      | none => [Kind.attemptOk]
      | some _ =>
        match trySendError (client 1) with
        | none => [Kind.attemptFailed, Kind.delay, Kind.attemptOk]
        | some _ =>
          match trySendError (client 2) with
          | none => [Kind.attemptFailed, Kind.delay, Kind.attemptFailed, Kind.delay,
              Kind.attemptOk]
          | some _ => [Kind.attemptFailed, Kind.delay, Kind.attemptFailed, Kind.delay,
              Kind.attemptFailed, Kind.delay] := by
  rw [sendFact_init_eq]
  cases h0 : trySendError (client 0) <;> cases h1 : trySendError (client 1) <;>
    cases h2 : trySendError (client 2) <;>
    simp [actions, Event.kind, attemptLog, h0, h1, h2]

/-- C1: one call of `sendFact` calls `trySend` at most 3 times, the recorded calls being
the client's results 0, 1, ... in order; it makes `k + 1` calls and returns `nil` when
call `k` (counted from 0, `k < 3`) is the first to succeed, 3 calls and an error when the
first three all fail, exactly 1 call when the client always succeeds; and it returns `nil`
exactly when one of the calls it made succeeded. -/
theorem sendFact_call_count (client : Client) (fact : Fact) :
    (sendFact client fact World.init).2.calls ≤ 3 ∧
    attempts (sendFact client fact World.init).2.trace =
      (sendFact client fact World.init).2.calls ∧
    attemptResults (sendFact client fact World.init).2.trace =
      (List.range (sendFact client fact World.init).2.calls).map client ∧
    (∀ k, k < 3 → attemptError client fact k = none →
      (∀ j, j < k → attemptError client fact j ≠ none) →
      (sendFact client fact World.init).2.calls = k + 1 ∧
        (sendFact client fact World.init).1 = none) ∧
    ((∀ k, k < 3 → attemptError client fact k ≠ none) →
      (sendFact client fact World.init).2.calls = 3 ∧
        (sendFact client fact World.init).1 ≠ none) ∧
    ((sendFact client fact World.init).1 = none ↔
      ∃ k, k < (sendFact client fact World.init).2.calls ∧ attemptError client fact k = none) ∧
    ((∀ k, attemptError client fact k = none) →
      (sendFact client fact World.init).2.calls = 1) := by
  simp only [attempts, sendFact_actions, attemptError_eq]
  rw [sendFact_init_eq]
  cases h0 : trySendError (client 0) <;> cases h1 : trySendError (client 1) <;>
    cases h2 : trySendError (client 2)
  all_goals
    simp only []
    refine ⟨by simp, by simp [Kind.isAttempt],
      by simp [attemptResults, attemptLog, List.range_succ], ?_, ?_, ?_, ?_⟩
    · intro k hk hs hf
      have f0 := hf 0
      have f1 := hf 1
      interval_cases k <;> simp_all
    · intro hf
      have f0 := hf 0
      have f1 := hf 1
      have f2 := hf 2
      simp_all
    · constructor
      · intro hr
        first
          | exact ⟨0, by simp, h0⟩
          | exact ⟨1, by simp, h1⟩
          | exact ⟨2, by simp, h2⟩
          | simp at hr
      · rintro ⟨k, hk, hs⟩
        interval_cases k <;> simp_all
    · intro hf
      have f0 := hf 0
      have f1 := hf 1
      have f2 := hf 2
      simp_all

/-- The kinds of the attempts and delays of a run of `sendFact` form one of four lists. -/
theorem sendFact_actions_shape (client : Client) (fact : Fact) :
    actions (sendFact client fact World.init).2.trace = [Kind.attemptOk] ∨
    actions (sendFact client fact World.init).2.trace =
      [Kind.attemptFailed, Kind.delay, Kind.attemptOk] ∨
    actions (sendFact client fact World.init).2.trace =
      [Kind.attemptFailed, Kind.delay, Kind.attemptFailed, Kind.delay, Kind.attemptOk] ∨
    actions (sendFact client fact World.init).2.trace =
      [Kind.attemptFailed, Kind.delay, Kind.attemptFailed, Kind.delay, Kind.attemptFailed,
        Kind.delay] := by
  rw [sendFact_actions]
  cases trySendError (client 0) <;> cases trySendError (client 1) <;>
    cases trySendError (client 2) <;> simp

/-- Placement of the delays in each of the four lists of kinds a run can produce. -/
theorem shape_delay_placement (t : List Kind)
    (ht : t = [Kind.attemptOk] ∨ t = [Kind.attemptFailed, Kind.delay, Kind.attemptOk] ∨
      t = [Kind.attemptFailed, Kind.delay, Kind.attemptFailed, Kind.delay, Kind.attemptOk] ∨
      t = [Kind.attemptFailed, Kind.delay, Kind.attemptFailed, Kind.delay,
        Kind.attemptFailed, Kind.delay]) :
    (∃ k rest, t = k :: rest ∧ k.isAttempt = true) ∧
    (∀ i j : Nat, i < j →
      (t[i]?).map Kind.isAttempt = some true → (t[j]?).map Kind.isAttempt = some true →
      (∀ k : Nat, i < k → k < j → (t[k]?).map Kind.isAttempt = some false) →
      j = i + 2 ∧ t[i + 1]? = some Kind.delay) ∧
    (∀ i : Nat, t[i]? = some Kind.attemptOk → t[i + 1]? = none) ∧
    (∀ i j : Nat, i < j → t[i]? = some Kind.attemptOk → t[j]? ≠ some Kind.delay) := by
  rcases ht with rfl | rfl | rfl | rfl
  all_goals
    refine ⟨by simp [Kind.isAttempt], ?_, ?_, ?_⟩
    · intro i j hij hi hj hk
      have k2 := hk 2
      rcases i with _|_|_|_|_|_|i <;> rcases j with _|_|_|_|_|_|j <;>
        simp_all [Kind.isAttempt]
    · intro i hi
      rcases i with _|_|_|_|_|_|i <;> simp_all
    · intro i j hij hi hj
      rcases i with _|_|_|_|_|_|i <;> rcases j with _|_|_|_|_|_|j <;> simp_all

/-- C5: in the attempts and delays of every run of `sendFact`, for every client: the first
event is an attempt (never a delay); between two consecutive attempts there is exactly one
event and it is a delay; nothing, so no delay, follows a successful attempt; and a run whose
first attempt succeeds performs no delay at all. -/
theorem sendFact_delay_placement (client : Client) (fact : Fact) :
    (∃ k rest, actions (sendFact client fact World.init).2.trace = k :: rest ∧
      k.isAttempt = true) ∧
    (∀ i j : Nat, i < j →
      ((actions (sendFact client fact World.init).2.trace)[i]?).map Kind.isAttempt = some true →
      ((actions (sendFact client fact World.init).2.trace)[j]?).map Kind.isAttempt = some true →
      (∀ k : Nat, i < k → k < j →
        ((actions (sendFact client fact World.init).2.trace)[k]?).map Kind.isAttempt
          = some false) →
      j = i + 2 ∧
        (actions (sendFact client fact World.init).2.trace)[i + 1]? = some Kind.delay) ∧
    (∀ i : Nat, (actions (sendFact client fact World.init).2.trace)[i]? = some Kind.attemptOk →
      (actions (sendFact client fact World.init).2.trace)[i + 1]? = none) ∧
    (∀ i j : Nat, i < j →
      (actions (sendFact client fact World.init).2.trace)[i]? = some Kind.attemptOk →
      (actions (sendFact client fact World.init).2.trace)[j]? ≠ some Kind.delay) ∧
    (attemptError client fact 0 = none →
      delays (sendFact client fact World.init).2.trace = 0) := by
  obtain ⟨p1, p2, p3, p4⟩ := shape_delay_placement _ (sendFact_actions_shape client fact)
  refine ⟨p1, p2, p3, p4, ?_⟩
  intro h0
  rw [attemptError_eq] at h0
  simp [delays, sendFact_actions, h0]

/-- Witness of C1: with a client that always succeeds `sendFact` calls `trySend` exactly once
and returns `nil`; with a client that fails once it makes two calls. -/
theorem sendFact_call_count_witness :
    (sendFact alwaysOk (mainFact 0) World.init).2.calls = 1 ∧
    ((sendFact failOnce (mainFact 0) World.init).2.calls = 1 + 1 ∧
      (sendFact failOnce (mainFact 0) World.init).1 = none) :=
  ⟨(sendFact_call_count alwaysOk (mainFact 0)).2.2.2.2.2.2 (fun _ => rfl),
   (sendFact_call_count failOnce (mainFact 0)).2.2.2.1 1 (by decide) (by decide)
     (by intro j hj; interval_cases j; decide)⟩

/-- Witness of C5: a run that fails once has a delay right after its first attempt, and a
run whose first attempt succeeds has no delay. -/
theorem sendFact_delay_placement_witness :
    (2 = 0 + 2 ∧
      (actions (sendFact failOnce (mainFact 0) World.init).2.trace)[0 + 1]? = some Kind.delay) ∧
    delays (sendFact alwaysOk (mainFact 0) World.init).2.trace = 0 :=
  ⟨(sendFact_delay_placement failOnce (mainFact 0)).2.1 0 2 (by decide) (by decide) (by decide)
     (by intro k h1 h2; interval_cases k; decide),
   (sendFact_delay_placement alwaysOk (mainFact 0)).2.2.2.2 (by decide)⟩

/-- C3 as stated fails: when every attempt is rejected with status 500 and body `err`,
`sendFact` makes 3 calls of `trySend` but performs 3 delays, not 2. -/
theorem sendFact_all_fail_not_two_delays :
    ¬ ((sendFact always500 (mainFact 0) World.init).2.calls = 3 ∧
      delays (sendFact always500 (mainFact 0) World.init).2.trace = 2) := by
  decide

/-- C3 amended: when the client fails on each of the three attempts, `sendFact` calls
`trySend` exactly 3 times and performs exactly 3 delays before returning its error: one
after each failed attempt, so 2 of them lie between consecutive attempts and the third
follows the last attempt. -/
theorem sendFact_all_fail_three_delays (client : Client) (fact : Fact)
    (hfail : ∀ k, k < 3 → attemptError client fact k ≠ none) :
    (sendFact client fact World.init).2.calls = 3 ∧
    attempts (sendFact client fact World.init).2.trace = 3 ∧
    delays (sendFact client fact World.init).2.trace = 3 ∧
    actions (sendFact client fact World.init).2.trace =
      [Kind.attemptFailed, Kind.delay, Kind.attemptFailed, Kind.delay,
        Kind.attemptFailed, Kind.delay] ∧
    (sendFact client fact World.init).1 ≠ none := by
  have f0 := hfail 0 (by decide)
  have f1 := hfail 1 (by decide)
  have f2 := hfail 2 (by decide)
  rw [attemptError_eq] at f0 f1 f2
  simp only [attempts, delays, sendFact_actions]
  rw [sendFact_init_eq]
  cases h0 : trySendError (client 0) <;> cases h1 : trySendError (client 1) <;>
    cases h2 : trySendError (client 2)
  all_goals first
    | exact absurd h0 f0
    | exact absurd h1 f1
    | exact absurd h2 f2
    | simp [Kind.isAttempt]

/-- Witness of C3 amended: the client rejected with status 500 and body `err`. -/
theorem sendFact_all_fail_three_delays_witness :
    (sendFact always500 (mainFact 0) World.init).2.calls = 3 ∧
    attempts (sendFact always500 (mainFact 0) World.init).2.trace = 3 ∧
    delays (sendFact always500 (mainFact 0) World.init).2.trace = 3 ∧
    actions (sendFact always500 (mainFact 0) World.init).2.trace =
      [Kind.attemptFailed, Kind.delay, Kind.attemptFailed, Kind.delay,
        Kind.attemptFailed, Kind.delay] ∧
    (sendFact always500 (mainFact 0) World.init).1 ≠ none :=
  sendFact_all_fail_three_delays always500 (mainFact 0)
    (fun _ _ => by simp [attemptError_eq, always500, trySendError, StatusOK])

/-- C4: when the three attempts fail with errors `e1`, `e2`, `e3`, `sendFact` returns one
error whose message is `сбой после 3 попыток: ` followed by `e3`, the error of the last
attempt; when every attempt is rejected with status 500 and body `err` the message is
`сбой после 3 попыток: код 500: err`. -/
theorem sendFact_exhausted_error (client : Client) (fact : Fact) :
    (∀ e1 e2 e3 : String, attemptError client fact 0 = some e1 →
      attemptError client fact 1 = some e2 → attemptError client fact 2 = some e3 →
      (sendFact client fact World.init).1 = some ("сбой после 3 попыток: " ++ e3)) ∧
    ((∀ k, k < 3 → client k = TransportResult.response 500 "err") →
      (sendFact client fact World.init).1 = some "сбой после 3 попыток: код 500: err") := by
  constructor
  · intro e1 e2 e3 h1 h2 h3
    rw [attemptError_eq] at h1 h2 h3
    rw [sendFact_init_eq, h1, h2, h3]
  · intro h
    have r0 : trySendError (client 0) = some "код 500: err" := by
      rw [h 0 (by decide)]; decide
    have r1 : trySendError (client 1) = some "код 500: err" := by
      rw [h 1 (by decide)]; decide
    have r2 : trySendError (client 2) = some "код 500: err" := by
      rw [h 2 (by decide)]; decide
    rw [sendFact_init_eq, r0, r1, r2]
    rfl

/-- Witness of C4: three different failures give the message of the third one, and the
client rejected with 500 and `err` gives the message of the scenario. -/
theorem sendFact_exhausted_error_witness :
    (sendFact failThreeWays (mainFact 0) World.init).1 =
      some ("сбой после 3 попыток: " ++ "код 502: bad gateway") ∧
    (sendFact always500 (mainFact 0) World.init).1 = some "сбой после 3 попыток: код 500: err" :=
  ⟨(sendFact_exhausted_error failThreeWays (mainFact 0)).1 "ошибка запроса: timeout"
     "код 404: not found" "код 502: bad gateway" (by decide) (by decide) (by decide),
   (sendFact_exhausted_error always500 (mainFact 0)).2 (fun _ _ => rfl)⟩

/-- C10: in every run of `sendFact` the number of delays equals the number of failed
attempts, a delay following each failed attempt, the last of the budget included: a run in
which all 3 attempts fail performs 3 delays and ends with the third delay before the error is
returned, and a run whose first success is call `k` (counted from 0, so attempt `k + 1`)
performs `k` delays. -/
theorem sendFact_delays_eq_failed (client : Client) (fact : Fact) :
    delays (sendFact client fact World.init).2.trace =
      failedAttempts (sendFact client fact World.init).2.trace ∧
    (∀ i : Nat,
      (actions (sendFact client fact World.init).2.trace)[i]? = some Kind.attemptFailed →
      (actions (sendFact client fact World.init).2.trace)[i + 1]? = some Kind.delay) ∧
    ((∀ k, k < 3 → attemptError client fact k ≠ none) →
      delays (sendFact client fact World.init).2.trace = 3 ∧
      (sendFact client fact World.init).2.trace.getLast? = some (Event.sleep retryDelay) ∧
      (sendFact client fact World.init).1 ≠ none) ∧
    (∀ k, k < 3 → attemptError client fact k = none →
      (∀ j, j < k → attemptError client fact j ≠ none) →
      delays (sendFact client fact World.init).2.trace = k) := by
  simp only [delays, failedAttempts, sendFact_actions, attemptError_eq]
  rw [sendFact_init_eq]
  cases h0 : trySendError (client 0) <;> cases h1 : trySendError (client 1) <;>
    cases h2 : trySendError (client 2)
  all_goals
    simp only []
    refine ⟨by simp, ?_, ?_, ?_⟩
    · intro i hi
      rcases i with _|_|_|_|_|_|i <;> simp at hi ⊢
    · intro hf
      have f0 := hf 0
      have f1 := hf 1
      have f2 := hf 2
      simp_all
    · intro k hk hs hf
      have f0 := hf 0
      have f1 := hf 1
      interval_cases k <;> simp_all

/-- Witness of C10: three delays when every attempt is rejected, one delay when the second
attempt is the first to succeed. -/
theorem sendFact_delays_eq_failed_witness :
    (delays (sendFact always500 (mainFact 0) World.init).2.trace = 3 ∧
      (sendFact always500 (mainFact 0) World.init).2.trace.getLast?
        = some (Event.sleep retryDelay) ∧
      (sendFact always500 (mainFact 0) World.init).1 ≠ none) ∧
    delays (sendFact failOnce (mainFact 0) World.init).2.trace = 1 :=
  ⟨(sendFact_delays_eq_failed always500 (mainFact 0)).2.2.1
     (fun _ _ => by simp [attemptError_eq, always500, trySendError, StatusOK]),
   (sendFact_delays_eq_failed failOnce (mainFact 0)).2.2.2 1 (by decide) (by decide)
     (by intro j hj; interval_cases j; decide)⟩

/-- C7: `trySend` returns `nil` exactly when the transport returns a response whose status
code is 200; for a response with any other status code `s` it returns the error
`код s: body`; when `client.Do` or `http.NewRequest` fails it returns an error that wraps
the failure. -/
theorem trySend_status (client : Client) (fact : Fact) (w : World) :
    ((trySend client fact w).1 = none ↔
      ∃ body, client w.calls = TransportResult.response 200 body) ∧
    (∀ (s : Int) (body : String), client w.calls = TransportResult.response s body → s ≠ 200 →
      (trySend client fact w).1 = some ("код " ++ itoa s ++ ": " ++ body)) ∧
    (∀ detail, client w.calls = TransportResult.doError detail →
      (trySend client fact w).1 = some ("ошибка запроса: " ++ detail)) ∧
    (∀ detail, client w.calls = TransportResult.newRequestError detail →
      (trySend client fact w).1 = some ("ошибка создания запроса: " ++ detail)) := by
  refine ⟨?_, ?_, ?_, ?_⟩
  · cases h : client w.calls with
    | newRequestError d => simp [trySend, trySendError, h]
    | doError d => simp [trySend, trySendError, h]
    | response s body =>
      by_cases hs : s = 200
      · simp [trySend, trySendError, StatusOK, h, hs]
      · simp [trySend, trySendError, StatusOK, h, hs]
  · intro s body h hs
    simp [trySend, trySendError, StatusOK, h, hs]
  · intro d h
    simp [trySend, trySendError, h]
  · intro d h
    simp [trySend, trySendError, h]

/-- Witness of C7: the 2xx codes 201 and 204 are rejections, and a failure of `client.Do`
is wrapped. -/
theorem trySend_status_witness :
    (trySend (fun _ => TransportResult.response 201 "created") (mainFact 0) World.init).1
      = some ("код " ++ itoa 201 ++ ": " ++ "created") ∧
    (trySend (fun _ => TransportResult.response 204 "") (mainFact 0) World.init).1
      = some ("код " ++ itoa 204 ++ ": " ++ "") ∧
    (trySend (fun _ => TransportResult.doError "timeout") (mainFact 0) World.init).1
      = some ("ошибка запроса: " ++ "timeout") ∧
    (trySend (fun _ => TransportResult.newRequestError "bad url") (mainFact 0) World.init).1
      = some ("ошибка создания запроса: " ++ "bad url") :=
  ⟨(trySend_status (fun _ => TransportResult.response 201 "created") (mainFact 0)
      World.init).2.1 201 "created" rfl (by decide),
   (trySend_status (fun _ => TransportResult.response 204 "") (mainFact 0)
      World.init).2.1 204 "" rfl (by decide),
   (trySend_status (fun _ => TransportResult.doError "timeout") (mainFact 0)
      World.init).2.2.1 "timeout" rfl,
   (trySend_status (fun _ => TransportResult.newRequestError "bad url") (mainFact 0)
      World.init).2.2.2 "bad url" rfl⟩

/-- The form of `trySend`, entry by entry. -/
theorem trySendForm_eq (f : Fact) :
    trySendForm f =
      [("period_start", [f.PeriodStart]), ("period_end", [f.PeriodEnd]),
       ("period_key", [f.PeriodKey]), ("indicator_to_mo_id", [itoa f.IndicatorToMoID]),
       ("indicator_to_mo_fact_id", ["0"]), ("value", [itoa f.Value]),
       ("fact_time", [f.FactTime]), ("is_plan", [planFlag f.IsPlan]),
       ("auth_user_id", [itoa f.AuthUserID]), ("comment", [f.Comment])] := by
  simp [trySendForm, Values.Set]

/-- C6: the form built by `trySend` has exactly the ten keys `period_start`, `period_end`,
`period_key`, `indicator_to_mo_id`, `indicator_to_mo_fact_id`, `value`, `fact_time`,
`is_plan`, `auth_user_id`, `comment`, each once and with a single value: the string fields
unchanged, the integer fields in decimal, `is_plan` equal to `1` for true and `0` for false,
and `indicator_to_mo_fact_id` equal to `0` whatever the record holds there, so that changing
`IndicatorToMoFactID` alone does not change the form. -/
theorem trySendForm_fields (f : Fact) :
    (trySendForm f).keys =
      ["period_start", "period_end", "period_key", "indicator_to_mo_id",
       "indicator_to_mo_fact_id", "value", "fact_time", "is_plan", "auth_user_id", "comment"] ∧
    (trySendForm f).keys.Nodup ∧ (trySendForm f).keys.length = 10 ∧
    (trySendForm f).lookup "period_start" = some [f.PeriodStart] ∧
    (trySendForm f).lookup "period_end" = some [f.PeriodEnd] ∧
    (trySendForm f).lookup "period_key" = some [f.PeriodKey] ∧
    (trySendForm f).lookup "indicator_to_mo_id" = some [toString f.IndicatorToMoID] ∧
    (trySendForm f).lookup "indicator_to_mo_fact_id" = some ["0"] ∧
    (trySendForm f).lookup "value" = some [toString f.Value] ∧
    (trySendForm f).lookup "fact_time" = some [f.FactTime] ∧
    (trySendForm f).lookup "is_plan" = some [if f.IsPlan = true then "1" else "0"] ∧
    (trySendForm f).lookup "auth_user_id" = some [toString f.AuthUserID] ∧
    (trySendForm f).lookup "comment" = some [f.Comment] ∧
    (∀ key, key ∉ (trySendForm f).keys → (trySendForm f).lookup key = none) ∧
    (∀ g : Fact, g.PeriodStart = f.PeriodStart → g.PeriodEnd = f.PeriodEnd →
      g.PeriodKey = f.PeriodKey → g.IndicatorToMoID = f.IndicatorToMoID →
      g.Value = f.Value → g.FactTime = f.FactTime → g.IsPlan = f.IsPlan →
      g.AuthUserID = f.AuthUserID → g.Comment = f.Comment →
      trySendForm g = trySendForm f) := by
  have hflag : planFlag f.IsPlan = if f.IsPlan = true then "1" else "0" := by
    cases f.IsPlan <;> rfl
  refine ⟨?_, ?_, ?_, ?_, ?_, ?_, ?_, ?_, ?_, ?_, ?_, ?_, ?_, ?_, ?_⟩
  case refine_14 =>
    intro key hk
    rw [trySendForm_eq] at hk ⊢
    simp only [Values.keys, List.map, List.mem_cons, List.mem_singleton, not_or,
      List.not_mem_nil, or_false] at hk
    obtain ⟨h1, h2, h3, h4, h5, h6, h7, h8, h9, h10⟩ := hk
    simp [Values.lookup, Ne.symm h1, Ne.symm h2, Ne.symm h3, Ne.symm h4, Ne.symm h5,
      Ne.symm h6, Ne.symm h7, Ne.symm h8, Ne.symm h9, Ne.symm h10]
  case refine_15 =>
    intro g h1 h2 h3 h4 h5 h6 h7 h8 h9
    rw [trySendForm_eq, trySendForm_eq, h1, h2, h3, h4, h5, h6, h7, h8, h9]
  all_goals
    rw [trySendForm_eq]
    simp [Values.keys, Values.lookup, itoa, hflag]

/-- A record equal to `facts[0]` of `main` except for its `IndicatorToMoFactID`. -/
theorem trySendForm_fields_witness :
    trySendForm ⟨"2024-12-01", "2024-12-31", "month", 227373, 777, 1, "2024-12-31", false, 40,
      "buffer Last_name 1"⟩ = trySendForm (mainFact 0) :=
  (trySendForm_fields (mainFact 0)).2.2.2.2.2.2.2.2.2.2.2.2.2.2
    ⟨"2024-12-01", "2024-12-31", "month", 227373, 777, 1, "2024-12-31", false, 40,
      "buffer Last_name 1"⟩ rfl rfl rfl rfl rfl rfl rfl rfl rfl

/-! ## The buffer: helper lemmas -/

theorem foldl_launch (facts : List Fact) (b : Buffer) :
    facts.foldl Buffer.launch b =
      ⟨b.queue, b.wg, b.tasks ++ facts.map (fun f => (⟨f, none, []⟩ : Task))⟩ := by
  induction facts generalizing b with
  | nil => simp
  | cons f rest ih => simp [List.foldl, ih, Buffer.launch]

/-- The effect of `AddFacts` in one formula. -/
theorem AddFacts_eq (b : Buffer) (facts : List Fact) :
    b.AddFacts facts =
      ⟨b.queue ++ facts, b.wg + (facts.length : Int),
        b.tasks ++ facts.map (fun f => (⟨f, none, []⟩ : Task))⟩ := by
  simp [Buffer.AddFacts, foldl_launch, Buffer.appendLocked, Buffer.wgAdd]

/-- Replacing one element of a list changes a filtered count by that element only. -/
theorem filter_length_set (p : Task → Bool) (l : List Task) (i : Nat) (t t1 : Task)
    (h : l[i]? = some t) :
    ((l.set i t1).filter p).length + (if p t then 1 else 0) =
      (l.filter p).length + (if p t1 then 1 else 0) := by
  induction l generalizing i with
  | nil => simp at h
  | cons a rest ih =>
    cases i with
    | zero =>
      simp at h
      subst h
      simp [List.filter_cons]
      split <;> split <;> simp
    | succ n =>
      simp at h
      have := ih n h
      simp [List.filter_cons]
      split <;> (try simp only [List.length_cons]) <;> omega

/-- When the step of a goroutine is possible, and what it yields. -/
theorem process_eq_some (env : Nat → Client) (b b1 : Buffer) (i : Nat)
    (h : b.process env i = some b1) :
    ∃ t, b.tasks[i]? = some t ∧ t.outcome = none ∧
      b1 = ⟨b.queue, b.wg - 1, b.tasks.set i (Task.done (env i) t.fact)⟩ := by
  unfold Buffer.process at h
  split at h
  · rename_i fact tr heq
    refine ⟨⟨fact, none, tr⟩, heq, rfl, ?_⟩
    simp [Buffer.wgAdd] at h
    rw [← h]
    rfl
  · simp at h

theorem process_of_running (env : Nat → Client) (b : Buffer) (i : Nat) (t : Task)
    (h : b.tasks[i]? = some t) (hr : t.outcome = none) :
    b.process env i = some ⟨b.queue, b.wg - 1, b.tasks.set i (Task.done (env i) t.fact)⟩ := by
  obtain ⟨f, o, tr⟩ := t
  simp at hr
  subst hr
  simp [Buffer.process, h, Buffer.wgAdd]
  rfl

/-- A property kept by every step holds after every sequence of steps. -/
theorem run_invariant (env : Nat → Client) (P : Buffer → Prop)
    (hstep : ∀ b s b1, P b → b.step env s = some b1 → P b1) :
    ∀ steps b b1, P b → Buffer.run env b steps = some b1 → P b1 := by
  intro steps
  induction steps with
  | nil =>
    intro b b1 hb h
    simp [Buffer.run] at h
    exact h ▸ hb
  | cons s rest ih =>
    intro b b1 hb h
    simp only [Buffer.run] at h
    split at h
    · rename_i b2 hs
      exact ih b2 b1 (hstep b s b2 hb hs) h
    · simp at h

theorem running_add_terminal (b : Buffer) : b.running + b.terminal = b.tasks.length := by
  unfold Buffer.running Buffer.terminal
  induction b.tasks with
  | nil => simp
  | cons t rest ih =>
    cases h : t.outcome <;> simp [List.filter_cons, h] <;> omega

theorem inv_init (env : Nat → Client) : Buffer.Inv env NewBuffer := by
  simp [Buffer.Inv, NewBuffer, Buffer.running]

theorem inv_AddFacts (env : Nat → Client) (b : Buffer) (facts : List Fact)
    (h : Buffer.Inv env b) : Buffer.Inv env (b.AddFacts facts) := by
  obtain ⟨h1, h2, h3⟩ := h
  rw [AddFacts_eq]
  refine ⟨?_, ?_, ?_⟩
  · simp only [Buffer.running, List.filter_append, List.length_append] at h1 ⊢
    have : (List.filter (fun t => t.outcome.isNone)
        (facts.map (fun f => (⟨f, none, []⟩ : Task)))).length = facts.length := by
      rw [List.filter_eq_self.mpr]
      · simp
      · intro t ht
        simp at ht
        obtain ⟨f, _, rfl⟩ := ht
        rfl
    rw [this, h1]
    push_cast
    rfl
  · simp [h2, Function.comp_def]
  · intro i t ht
    simp only at ht
    by_cases hi : i < b.tasks.length
    · rw [List.getElem?_append_left hi] at ht
      exact h3 i t ht
    · rw [List.getElem?_append_right (by omega)] at ht
      simp at ht
      obtain ⟨f, _, rfl⟩ := ht
      exact Or.inl rfl

theorem inv_process (env : Nat → Client) (b b1 : Buffer) (i : Nat)
    (h : Buffer.Inv env b) (hp : b.process env i = some b1) : Buffer.Inv env b1 := by
  obtain ⟨h1, h2, h3⟩ := h
  obtain ⟨t, ht, hr, rfl⟩ := process_eq_some env b b1 i hp
  refine ⟨?_, ?_, ?_⟩
  · have := filter_length_set (fun t => t.outcome.isNone) b.tasks i t
      (Task.done (env i) t.fact) ht
    have hd : (Task.done (env i) t.fact).outcome.isNone = false := rfl
    simp [hr, hd] at this
    simp only [Buffer.running] at h1 ⊢
    rw [h1]
    omega
  · simp only
    rw [← h2]
    apply List.ext_getElem?
    intro n
    by_cases hn : i = n
    · subst hn
      simp [List.getElem?_set, ht]
      exact ⟨(List.getElem?_eq_some.mp ht).1, rfl⟩
    · simp [List.getElem?_set_ne hn]
  · intro n u hu
    simp only at hu
    by_cases hn : i = n
    · subst hn
      rw [List.getElem?_set] at hu
      simp at hu
      obtain ⟨_, rfl⟩ := hu
      exact Or.inr rfl
    · rw [List.getElem?_set_ne hn] at hu
      exact h3 n u hu

theorem inv_step (env : Nat → Client) (b : Buffer) (s : Step) (b1 : Buffer)
    (h : Buffer.Inv env b) (hs : b.step env s = some b1) : Buffer.Inv env b1 := by
  cases s with
  | addFacts facts =>
    simp [Buffer.step] at hs
    exact hs ▸ inv_AddFacts env b facts h
  | finish i => exact inv_process env b b1 i h hs

/-- Every state reached from a new buffer satisfies the invariant. -/
theorem inv_reachable (env : Nat → Client) (steps : List Step) (b : Buffer)
    (h : Buffer.run env NewBuffer steps = some b) : Buffer.Inv env b :=
  run_invariant env (Buffer.Inv env) (inv_step env) steps NewBuffer b (inv_init env) h

theorem terminal_eq_failed_add_delivered (b : Buffer) :
    b.terminal = b.failedCount + b.deliveredCount := by
  unfold Buffer.terminal Buffer.failedCount Buffer.deliveredCount
  induction b.tasks with
  | nil => simp
  | cons t rest ih =>
    rcases h : t.outcome with _ | o
    · simp [List.filter_cons, h, ih]
    · cases o <;> simp [List.filter_cons, h, ih, Outcome.isFailed] <;> omega

/-- Returns of goroutines change neither the queue nor the number of goroutines. -/
theorem run_finish_keeps (env : Nat → Client) (order : List Nat) :
    ∀ b b1, Buffer.run env b (order.map Step.finish) = some b1 →
      b1.queue = b.queue ∧ b1.tasks.length = b.tasks.length := by
  induction order with
  | nil =>
    intro b b1 h
    simp [Buffer.run] at h
    subst h
    exact ⟨rfl, rfl⟩
  | cons i rest ih =>
    intro b b1 h
    simp only [List.map_cons, Buffer.run, Buffer.step] at h
    split at h
    · rename_i b2 hs
      obtain ⟨t, _, _, rfl⟩ := process_eq_some env b b2 i hs
      have := ih _ b1 h
      simpa using this
    · simp at h

/-- Goroutines that have not returned can return in any order, each adding one terminal
outcome. -/
theorem run_finish_all (env : Nat → Client) (order : List Nat) :
    ∀ b, order.Nodup → (∀ i ∈ order, ∃ t, b.tasks[i]? = some t ∧ t.outcome = none) →
      ∃ b1, Buffer.run env b (order.map Step.finish) = some b1 ∧
        b1.terminal = b.terminal + order.length := by
  induction order with
  | nil =>
    intro b _ _
    exact ⟨b, rfl, rfl⟩
  | cons i rest ih =>
    intro b hnd hrun
    obtain ⟨t, ht, hr⟩ := hrun i (List.mem_cons_self i rest)
    have hp := process_of_running env b i t ht hr
    rw [List.nodup_cons] at hnd
    obtain ⟨b1, hb1, hterm⟩ := ih ⟨b.queue, b.wg - 1, b.tasks.set i (Task.done (env i) t.fact)⟩
      hnd.2 (by
        intro j hj
        have hij : i ≠ j := fun h => hnd.1 (h ▸ hj)
        obtain ⟨u, hu, hur⟩ := hrun j (List.mem_cons_of_mem i hj)
        exact ⟨u, by simp [List.getElem?_set_ne hij, hu], hur⟩)
    refine ⟨b1, ?_, ?_⟩
    · simp only [List.map_cons, Buffer.run, Buffer.step, hp]
      exact hb1
    · rw [hterm]
      have := filter_length_set (fun t => t.outcome.isSome) b.tasks i t
        (Task.done (env i) t.fact) ht
      have hd : (Task.done (env i) t.fact).outcome.isSome = true := rfl
      simp [hr, hd] at this
      simp only [Buffer.terminal, List.length_cons]
      omega

/-- Once every goroutine of a batch has returned the tasks are the completed ones. -/
theorem tasks_of_all_terminal (env : Nat → Client) (b : Buffer) (h : Buffer.Inv env b)
    (hall : b.terminal = b.tasks.length) :
    b.tasks = b.queue.enum.map (fun p => Task.done (env p.1) p.2) := by
  obtain ⟨_, h2, h3⟩ := h
  have hsome : ∀ t ∈ b.tasks, t.outcome.isSome = true :=
    List.filter_length_eq_length.mp hall
  apply List.ext_getElem?
  intro n
  rw [List.getElem?_map, List.getElem?_enum, ← h2, List.getElem?_map]
  cases hn : b.tasks[n]? with
  | none => simp
  | some t =>
    have hmem : t ∈ b.tasks := List.getElem?_mem hn
    have hs := hsome t hmem
    rcases h3 n t hn with h | h
    · rw [h] at hs
      simp at hs
    · simp
      exact h

/-- The state after a batch is added to a new buffer and some goroutines return. -/
theorem batch_run_facts (env : Nat → Client) (facts : List Fact) (order : List Nat)
    (b : Buffer)
    (h : Buffer.run env NewBuffer (Step.addFacts facts :: order.map Step.finish) = some b) :
    Buffer.Inv env b ∧ b.queue = facts ∧ b.tasks.length = facts.length := by
  have hinv := inv_reachable env _ b h
  simp only [Buffer.run, Buffer.step] at h
  obtain ⟨hq, hl⟩ := run_finish_keeps env order _ b h
  rw [AddFacts_eq] at hq hl
  refine ⟨hinv, ?_, ?_⟩
  · simpa [NewBuffer] using hq
  · simpa [NewBuffer] using hl

/-- C2: in every state reached from a new buffer by calls of `AddFacts` and returns of
`process`, the counter of the wait group is non-negative and equals the number of launched
goroutines that have not reached a terminal outcome; and after one `AddFacts` of a batch of
`N` records on a new buffer there is one goroutine per record, at most `N` terminal outcomes,
and the counter is zero (`wg.Wait` returns) exactly when `N` terminal outcomes have been
produced, successes and failures alike. -/
theorem wg_counts_running (env : Nat → Client) :
    (∀ steps b, Buffer.run env NewBuffer steps = some b →
      0 ≤ b.wg ∧ b.wg = (b.running : Int) ∧ b.running + b.terminal = b.tasks.length ∧
      b.terminal = b.failedCount + b.deliveredCount) ∧
    (∀ (facts : List Fact) (order : List Nat) (b : Buffer),
      Buffer.run env NewBuffer (Step.addFacts facts :: order.map Step.finish) = some b →
      b.tasks.map Task.fact = facts ∧ b.terminal ≤ facts.length ∧
      (b.wg = 0 ↔ b.terminal = facts.length) ∧
      (b.waitReturns = true ↔ b.terminal = facts.length)) := by
  constructor
  · intro steps b h
    obtain ⟨h1, _, _⟩ := inv_reachable env steps b h
    exact ⟨by omega, h1, running_add_terminal b, terminal_eq_failed_add_delivered b⟩
  · intro facts order b h
    obtain ⟨⟨h1, h2, _⟩, hq, hl⟩ := batch_run_facts env facts order b h
    have hsum := running_add_terminal b
    have key : b.wg = 0 ↔ b.terminal = facts.length := by
      constructor <;> intro h0 <;> omega
    refine ⟨by rw [h2, hq], by omega, key, ?_⟩
    simp [Buffer.waitReturns, key]

/-- Witness of C2: the batch of `main` with two goroutines returned has counter 8, and at
the end of a run the counter is zero. -/
theorem wg_counts_running_witness :
    (0 ≤ midRun.wg ∧ midRun.wg = (midRun.running : Int) ∧
      midRun.running + midRun.terminal = midRun.tasks.length ∧
      midRun.terminal = midRun.failedCount + midRun.deliveredCount) ∧
    endRun.wg = 0 :=
  ⟨(wg_counts_running fifthFails).1
     [Step.addFacts mainFacts, Step.finish 4, Step.finish 0] midRun (by decide),
   ((wg_counts_running fifthFails).2 mainFacts sampleOrder endRun (by decide)).2.2.1.mpr
     (by decide)⟩

/-- The queue length after a sequence of operations. -/
theorem exec_queue_length (ops : List Op) (b : Buffer) :
    (ops.foldl Buffer.exec b).queue.length = b.queue.length + (ops.map Op.appended).sum := by
  induction ops generalizing b with
  | nil => simp
  | cons op rest ih =>
    rw [List.foldl_cons, ih]
    cases op
    all_goals
      simp only [Buffer.exec, Buffer.appendLocked, Buffer.wgAdd, Buffer.launch, Op.appended,
        List.map_cons, List.sum_cons, List.length_append]
      omega

theorem addFactsOps_appended (batches : List (List Fact)) :
    ((batches.flatMap addFactsOps).map Op.appended).sum = (batches.map List.length).sum := by
  induction batches with
  | nil => simp
  | cons facts rest ih =>
    have hz : ((facts.map Op.launch).map Op.appended).sum = 0 := by
      induction facts with
      | nil => simp
      | cons f fs ihf => simpa [Op.appended] using ihf
    simp only [List.flatMap_cons, List.map_append, List.sum_append, ih, addFactsOps,
      List.map_cons, List.sum_cons, Op.appended, hz]
    omega

/-- C9: for every buffer and every sequence `facts` of `N` records, `AddFacts` leaves the
queue equal to the old queue followed by `facts`, raises the counter by exactly `N` and
launches exactly `N` goroutines, one per record in order; for an empty sequence the buffer is
unchanged, so a new buffer stays at counter zero and `wg.Wait` returns at once; after any
series of `AddFacts` calls on a new buffer the queue length is the sum of the batch sizes,
also when the operations of the calls run in any other order. -/
theorem AddFacts_effect :
    (∀ (b : Buffer) (facts : List Fact),
      (b.AddFacts facts).queue = b.queue ++ facts ∧
      (b.AddFacts facts).wg = b.wg + (facts.length : Int) ∧
      (b.AddFacts facts).tasks = b.tasks ++ facts.map (fun f => (⟨f, none, []⟩ : Task)) ∧
      (b.AddFacts facts).tasks.length = b.tasks.length + facts.length ∧
      b.AddFacts facts = (addFactsOps facts).foldl Buffer.exec b) ∧
    (∀ b : Buffer, b.AddFacts [] = b) ∧
    ((NewBuffer.AddFacts []).wg = 0 ∧ (NewBuffer.AddFacts []).tasks = [] ∧
      (NewBuffer.AddFacts []).waitReturns = true) ∧
    (∀ batches : List (List Fact),
      (batches.foldl Buffer.AddFacts NewBuffer).queue.length
        = (batches.map List.length).sum) ∧
    (∀ (batches : List (List Fact)) (ops : List Op),
      ops.Perm (batches.flatMap addFactsOps) →
      (ops.foldl Buffer.exec NewBuffer).queue.length = (batches.map List.length).sum) := by
  have hops : ∀ (b : Buffer) (facts : List Fact),
      b.AddFacts facts = (addFactsOps facts).foldl Buffer.exec b := by
    intro b facts
    simp only [addFactsOps, List.foldl_cons, Buffer.exec, List.foldl_map, Buffer.AddFacts]
  have hperm : ∀ (batches : List (List Fact)) (ops : List Op),
      ops.Perm (batches.flatMap addFactsOps) →
      (ops.foldl Buffer.exec NewBuffer).queue.length = (batches.map List.length).sum := by
    intro batches ops hp
    rw [exec_queue_length, (hp.map Op.appended).sum_eq, addFactsOps_appended]
    simp [NewBuffer]
  refine ⟨?_, ?_, ?_, ?_, hperm⟩
  · intro b facts
    refine ⟨?_, ?_, ?_, ?_, hops b facts⟩ <;> simp [AddFacts_eq]
  · intro b
    cases b
    simp [AddFacts_eq]
  · exact ⟨rfl, rfl, rfl⟩
  · intro batches
    have : batches.foldl Buffer.AddFacts NewBuffer
        = (batches.flatMap addFactsOps).foldl Buffer.exec NewBuffer := by
      generalize NewBuffer = b
      induction batches generalizing b with
      | nil => rfl
      | cons facts rest ih =>
        rw [List.foldl_cons, ih, List.flatMap_cons, List.foldl_append, hops]
    rw [this]
    exact hperm batches _ (List.Perm.refl _)

/-- Witness of C9: two concurrent calls of `AddFacts`, with two and one records, whose
operations interleave (the second call appends first): the queue has three records. -/
theorem AddFacts_effect_witness :
    ([Op.append [mainFact 2], Op.append [mainFact 0, mainFact 1], Op.add 2,
        Op.launch (mainFact 0), Op.add 1, Op.launch (mainFact 2),
        Op.launch (mainFact 1)].foldl Buffer.exec NewBuffer).queue.length
      = ([[mainFact 0, mainFact 1], [mainFact 2]].map List.length).sum :=
  AddFacts_effect.2.2.2.2 [[mainFact 0, mainFact 1], [mainFact 2]] _ (by decide)

/-- The outcome of the body of `process` is a failure exactly when the three attempts fail. -/
theorem process_failed_iff (client : Client) (fact : Fact) :
    ((process client fact World.init).1.isFailed = true ↔
      ∀ k, k < 3 → attemptError client fact k ≠ none) ∧
    ((process client fact World.init).1 = Outcome.delivered ↔
      ∃ k, k < 3 ∧ attemptError client fact k = none) := by
  simp only [process, attemptError_eq]
  rw [sendFact_init_eq]
  cases h0 : trySendError (client 0) <;> cases h1 : trySendError (client 1) <;>
    cases h2 : trySendError (client 2)
  all_goals
    simp only [Outcome.isFailed]
    constructor
    · constructor
      · intro hf k hk
        interval_cases k <;> simp_all
      · intro hf
        have f0 := hf 0
        have f1 := hf 1
        have f2 := hf 2
        simp_all
    · constructor
      · intro hd
        first
          | exact ⟨0, by decide, h0⟩
          | exact ⟨1, by decide, h1⟩
          | exact ⟨2, by decide, h2⟩
          | simp at hd
      · rintro ⟨k, hk, hs⟩
        interval_cases k <;> simp_all

/-- A batch added to a new buffer, its goroutines returning in any order, ends in the
completed buffer. -/
theorem run_batch_completed (env : Nat → Client) (facts : List Fact) (order : List Nat)
    (hp : order.Perm (List.range facts.length)) :
    Buffer.run env NewBuffer (Step.addFacts facts :: order.map Step.finish)
      = some (Buffer.completed env facts) := by
  have hnd : order.Nodup := hp.nodup_iff.mpr (List.nodup_range _)
  have hlen : order.length = facts.length := by simpa using hp.length_eq
  have hall : ∀ i ∈ order,
      ∃ t, (NewBuffer.AddFacts facts).tasks[i]? = some t ∧ t.outcome = none := by
    intro i hi
    have hi2 : i < facts.length := List.mem_range.mp (hp.mem_iff.mp hi)
    refine ⟨⟨facts[i], none, []⟩, ?_, rfl⟩
    simp [AddFacts_eq, NewBuffer, hi2]
  obtain ⟨b1, hrun, hterm⟩ := run_finish_all env order (NewBuffer.AddFacts facts) hnd hall
  have hrun2 : Buffer.run env NewBuffer (Step.addFacts facts :: order.map Step.finish)
      = some b1 := by
    simpa only [Buffer.run, Buffer.step] using hrun
  obtain ⟨hinv, hq, hl⟩ := batch_run_facts env facts order b1 hrun2
  have ht0 : (NewBuffer.AddFacts facts).terminal = 0 := by
    simp [AddFacts_eq, NewBuffer, Buffer.terminal]
  have hterm2 : b1.terminal = b1.tasks.length := by omega
  have htasks := tasks_of_all_terminal env b1 hinv hterm2
  have hsum := running_add_terminal b1
  have hwg : b1.wg = 0 := by
    have := hinv.1
    omega
  rw [hrun2]
  obtain ⟨q, w, ts⟩ := b1
  simp only at hq hwg htasks
  subst hq hwg
  simp [Buffer.completed, htasks]

/-- C8: each step of `process` decrements the counter exactly once, gives its own goroutine
its terminal outcome, leaves the other goroutines as they are, and cannot be taken a second
time; the outcome is `Failed` exactly when the three attempts for that record fail and
`Delivered` otherwise; in every reachable state the outcome of goroutine `i` is the one its
own client determines, whatever the sibling clients do; a batch whose goroutines return in
any order ends with counter zero and one terminal outcome per record. In the batch of 10 of
`main` where the client always fails for record 5 and always succeeds for the others, every
order of returns ends with counter zero, 10 terminal outcomes, 1 `Failed` and 9
`Delivered`. -/
theorem process_outcomes :
    (∀ (env : Nat → Client) (b b1 : Buffer) (i : Nat), b.process env i = some b1 →
      b1.wg = b.wg - 1 ∧ b1.queue = b.queue ∧ b1.terminal = b.terminal + 1 ∧
      (∃ t, b.tasks[i]? = some t ∧ t.outcome = none ∧
        b1.tasks[i]? = some (Task.done (env i) t.fact)) ∧
      (∀ j : Nat, j ≠ i → b1.tasks[j]? = b.tasks[j]?) ∧
      b1.process env i = none) ∧
    (∀ (client : Client) (fact : Fact),
      ((process client fact World.init).1.isFailed = true ↔
        ∀ k, k < 3 → attemptError client fact k ≠ none) ∧
      ((process client fact World.init).1 = Outcome.delivered ↔
        ∃ k, k < 3 ∧ attemptError client fact k = none)) ∧
    (∀ (env : Nat → Client) (steps : List Step) (b : Buffer) (i : Nat) (t : Task),
      Buffer.run env NewBuffer steps = some b → b.tasks[i]? = some t →
      t.outcome = none ∨ t.outcome = some (process (env i) t.fact World.init).1) ∧
    (∀ (env env1 : Nat → Client) (steps steps1 : List Step) (b b1 : Buffer) (i : Nat)
      (t t1 : Task), env i = env1 i →
      Buffer.run env NewBuffer steps = some b → Buffer.run env1 NewBuffer steps1 = some b1 →
      b.tasks[i]? = some t → b1.tasks[i]? = some t1 → t.fact = t1.fact →
      t.outcome ≠ none → t1.outcome ≠ none → t.outcome = t1.outcome) ∧
    (∀ (env : Nat → Client) (facts : List Fact) (order : List Nat),
      order.Perm (List.range facts.length) →
      ∃ b, Buffer.run env NewBuffer (Step.addFacts facts :: order.map Step.finish) = some b ∧
        b.wg = 0 ∧ b.terminal = facts.length ∧ b.tasks.map Task.fact = facts ∧
        ∀ (i : Nat) (t : Task), b.tasks[i]? = some t →
          t.outcome = some (process (env i) t.fact World.init).1) ∧
    (∀ order : List Nat, order.Perm (List.range 10) →
      ∃ b, Buffer.run fifthFails NewBuffer
          (Step.addFacts mainFacts :: order.map Step.finish) = some b ∧
        b.wg = 0 ∧ b.terminal = 10 ∧ b.failedCount = 1 ∧ b.deliveredCount = 9) := by
  have hdet : ∀ (env : Nat → Client) (steps : List Step) (b : Buffer) (i : Nat) (t : Task),
      Buffer.run env NewBuffer steps = some b → b.tasks[i]? = some t →
      t.outcome = none ∨ t.outcome = some (process (env i) t.fact World.init).1 := by
    intro env steps b i t hrun ht
    rcases (inv_reachable env steps b hrun).2.2 i t ht with h | h
    · exact Or.inl (by rw [h])
    · exact Or.inr (by rw [h]; rfl)
  refine ⟨?_, process_failed_iff, hdet, ?_, ?_, ?_⟩
  · intro env b b1 i hp
    obtain ⟨t, ht, hr, rfl⟩ := process_eq_some env b b1 i hp
    have hi : i < b.tasks.length := (List.getElem?_eq_some.mp ht).1
    have hcount := filter_length_set (fun t => t.outcome.isSome) b.tasks i t
      (Task.done (env i) t.fact) ht
    have hd : (Task.done (env i) t.fact).outcome.isSome = true := rfl
    simp [hr, hd] at hcount
    refine ⟨rfl, rfl, ?_, ⟨t, ht, hr, ?_⟩, ?_, ?_⟩
    · simp only [Buffer.terminal]
      omega
    · simp [List.getElem?_set, hi]
    · intro j hj
      simp [List.getElem?_set_ne (Ne.symm hj)]
    · simp [Buffer.process, List.getElem?_set, hi, Task.done]
  · intro env env1 steps steps1 b b1 i t t1 he hrun hrun1 ht ht1 hf ho ho1
    rcases hdet env steps b i t hrun ht with h | h
    · exact absurd h ho
    · rcases hdet env1 steps1 b1 i t1 hrun1 ht1 with h1 | h1
      · exact absurd h1 ho1
      · rw [h, h1, he, hf]
  · intro env facts order hp
    have hrun := run_batch_completed env facts order hp
    obtain ⟨hinv, hq, hl⟩ := batch_run_facts env facts order _ hrun
    have hsum := running_add_terminal (Buffer.completed env facts)
    have hwg : (Buffer.completed env facts).wg = 0 := rfl
    have hterm : (Buffer.completed env facts).terminal = facts.length := by
      have := hinv.1
      omega
    refine ⟨_, hrun, hwg, hterm, by rw [hinv.2.1, hq], ?_⟩
    intro i t ht
    have hsome : t.outcome.isSome = true :=
      List.filter_length_eq_length.mp (by rw [← hl] at hterm; exact hterm) t
        (List.getElem?_mem ht)
    rcases hdet env _ _ i t hrun ht with h | h
    · rw [h] at hsome
      simp at hsome
    · exact h
  · intro order hp
    exact ⟨_, run_batch_completed fifthFails mainFacts order hp, by decide, by decide,
      by decide, by decide⟩

/-- Witness of C8: the batch of `main` with record 5 always failing, the goroutines
returning in the sample order. -/
theorem process_outcomes_witness :
    ∃ b, Buffer.run fifthFails NewBuffer
        (Step.addFacts mainFacts :: sampleOrder.map Step.finish) = some b ∧
      b.wg = 0 ∧ b.terminal = 10 ∧ b.failedCount = 1 ∧ b.deliveredCount = 9 :=
  process_outcomes.2.2.2.2.2 sampleOrder (by decide)

end KpiDrive
